import Mathlib

/-!
Verification of the LED pattern sequencer in `src/main.rs`.

The program is a bare-metal firmware loop: it holds one mutable variable
`sequence_index`, and on each loop iteration executes the blink pattern
selected by that index (a fixed sequence of GPIO writes `set_low` / `set_high`
and busy-wait delays `delay_ms`), then advances the index by `(i + 1) % 4`.

We embed one loop iteration as the list of observable events it emits, in
program order.  `Event.setLow` and `Event.setHigh` are the two GPIO writes
(`led.set_low()` / `led.set_high()`), and `Event.delayMs d` is a call
`delay.delay_ms(d)`.  Per the source comments, `set_low` turns the LED on and
`set_high` turns it off (inverted electrical polarity).  Wall-clock time of an
iteration is modelled as the sum of the delay durations, since `delay_ms` is
the only time-consuming operation in the loop body.
-/

/-- One observable action of the loop body: a GPIO write or a delay call. -/
inductive Event where
  | setLow : Event
  | setHigh : Event
  | delayMs : Nat → Event
deriving DecidableEq, BEq, Repr

/-- The events emitted by one iteration of the `loop` in `main`, as a function
of `sequence_index`.  Each arm is a direct transcription of the corresponding
`match` arm in `src/main.rs` (lines 31-102): `for _ in 0..k { ... }` becomes
`(List.range k).flatMap`, and `for i in 1..=10` becomes `List.range' 1 10`
(the `.rev()` half uses `.reverse`).  The `u32` arithmetic `i * 10` and
`100 - i * 10` never overflows or underflows for `1 ≤ i ≤ 10`, so `Nat`
arithmetic agrees with it. -/
def loopBody (sequence_index : Nat) : List Event :=
  match sequence_index with
  | 0 =>
      (List.range 3).flatMap (fun _ =>
        [Event.setLow, Event.delayMs 100, Event.setHigh, Event.delayMs 100])
      ++ [Event.delayMs 1000]
  | 1 =>
      (List.range 2).flatMap (fun _ =>
        [Event.setLow, Event.delayMs 500, Event.setHigh, Event.delayMs 500])
      ++ [Event.delayMs 1000]
  | 2 =>
      ((List.range 3).flatMap (fun _ =>
        [Event.setLow, Event.delayMs 200, Event.setHigh, Event.delayMs 200])
      ++ [Event.delayMs 200])
      ++ ((List.range 3).flatMap (fun _ =>
        [Event.setLow, Event.delayMs 600, Event.setHigh, Event.delayMs 200])
      ++ [Event.delayMs 200])
      ++ ((List.range 3).flatMap (fun _ =>
        [Event.setLow, Event.delayMs 200, Event.setHigh, Event.delayMs 200])
      ++ [Event.delayMs 2000])
  | _ =>
      (List.range' 1 10).flatMap (fun i =>
        [Event.setLow, Event.delayMs (i * 10), Event.setHigh,
         Event.delayMs (100 - i * 10)])
      ++ (List.range' 1 10).reverse.flatMap (fun i =>
        [Event.setLow, Event.delayMs (i * 10), Event.setHigh,
         Event.delayMs (100 - i * 10)])
      ++ [Event.delayMs 500]

/-- The index update at the end of each loop iteration:
`sequence_index = (sequence_index + 1) % 4` (line 105). -/
def nextIndex (sequence_index : Nat) : Nat := (sequence_index + 1) % 4

/-- The value of `sequence_index` at the start of iteration `n`, starting from
the initial value `0` (line 28). -/
def indexAt : Nat → Nat
  | 0 => 0
  | n + 1 => nextIndex (indexAt n)

/-- The durations of all `delay_ms` calls in an event list, in order. -/
def delayDurations : List Event → List Nat
  | [] => []
  | Event.delayMs d :: rest => d :: delayDurations rest
  | _ :: rest => delayDurations rest

/-- Wall-clock time (in ms) consumed by an event list: the sum of all delay
durations, since `delay_ms` is the only time-consuming operation. -/
def wallTimeMs (es : List Event) : Nat := (delayDurations es).sum

/-- Just the GPIO writes of an event list, in order (delays dropped). -/
def pinWrites (es : List Event) : List Event :=
  es.filter (fun e =>
    match e with
    | Event.delayMs _ => false
    | _ => true)

/-- The electrical level of the LED pin. -/
inductive Level where
  | low : Level
  | high : Level
deriving DecidableEq, Repr

/-- Effect of one event on the pin level: `set_low` drives it low, `set_high`
drives it high, a delay leaves it unchanged. -/
def applyEvent (l : Level) : Event → Level
  | Event.setLow => Level.low
  | Event.setHigh => Level.high
  | Event.delayMs _ => l

/-- Pin level after executing an event list from initial level `init`. -/
def levelAfter (es : List Event) (init : Level) : Level := es.foldl applyEvent init

/-- One complete on/off pulse: turn the LED on (`set_low`), hold `onMs`, turn
it off (`set_high`), hold `offMs`.  This is the shape of every pulse in the
source, with `set_low` = on per the inverted-polarity comments. -/
def pulse (onMs offMs : Nat) : List Event :=
  [Event.setLow, Event.delayMs onMs, Event.setHigh, Event.delayMs offMs]

/-- A train of pulses given by a list of (on-duration, off-duration) pairs. -/
def pulseTrain (ps : List (Nat × Nat)) : List Event :=
  ps.flatMap (fun p => pulse p.1 p.2)

/-- The on-durations of an event list: the delay immediately following each
`set_low`. -/
def onDurations : List Event → List Nat
  | Event.setLow :: Event.delayMs d :: rest => d :: onDurations rest
  | _ :: rest => onDurations rest
  | [] => []

/-- The off-durations of an event list: the delay immediately following each
`set_high`. -/
def offDurations : List Event → List Nat
  | Event.setHigh :: Event.delayMs d :: rest => d :: offDurations rest
  | _ :: rest => offDurations rest
  | [] => []

/-- Checks that an event list consists only of complete pulses
(`set_low`, delay, `set_high`, delay) and standalone delays: every on-phase is
realized by `set_low` and every off-phase by `set_high`, in that order. -/
def isPulsesAndPauses : List Event → Bool
  | [] => true
  | Event.delayMs _ :: rest => isPulsesAndPauses rest
  | Event.setLow :: Event.delayMs _ :: Event.setHigh :: Event.delayMs _ :: rest =>
      isPulsesAndPauses rest
  | _ => false

/-- Checks that a list of pin writes strictly alternates `set_low`, `set_high`,
beginning with `set_low` and ending with `set_high` (when nonempty). -/
def isAltLowHigh : List Event → Bool
  | [] => true
  | Event.setLow :: Event.setHigh :: rest => isAltLowHigh rest
  | _ => false

/-- The (on, off) duration pairs of the ascending (fade-in) half of the
Breathing pattern: for `i` from 1 to 10, on `10·i` ms, off `100 − 10·i` ms. -/
def breathPairs : List (Nat × Nat) :=
  (List.range' 1 10).map (fun i => (i * 10, 100 - i * 10))

/-- A run of the sequencer from a freshly reset index: `f n` is the pair of
the value of `sequence_index` at iteration `n` and the events that iteration
emits.  The conditions mirror the code exactly: the index starts at 0, the
iteration output is the pattern selected by the current index and nothing
else, and the next index is `(current + 1) % 4`. -/
def IsRun (f : Nat → Nat × List Event) : Prop :=
  (f 0).1 = 0 ∧ ∀ n, (f n).2 = loopBody (f n).1 ∧ (f (n + 1)).1 = ((f n).1 + 1) % 4

/-- The run of `main`: index `indexAt n`, output `loopBody (indexAt n)`. -/
def mainRun (n : Nat) : Nat × List Event := (indexAt n, loopBody (indexAt n))

/-- The closed-form run: index `n % 4`, output `loopBody (n % 4)`. -/
def canonicalRun (n : Nat) : Nat × List Event := (n % 4, loopBody (n % 4))

/-! ### Helper lemmas -/

/-- The sequence index at iteration `n` is `n % 4`. -/
theorem indexAt_eq_mod (n : Nat) : indexAt n = n % 4 := by
  induction n with
  | zero => rfl
  | succ k ih =>
      show nextIndex (indexAt k) = (k + 1) % 4
      rw [ih]
      show (k % 4 + 1) % 4 = (k + 1) % 4
      omega

/-! ### Claims -/

/-- C6: executing the Fast pattern (index 0) produces exactly 3 on/off pulses
of 100 ms on and 100 ms off each, followed by a 1000 ms off-period, for a
total elapsed time of 1600 ms. -/
theorem fast_pattern_structure :
    loopBody 0 = pulseTrain [(100, 100), (100, 100), (100, 100)] ++ [Event.delayMs 1000] ∧
    (loopBody 0).count Event.setLow = 3 ∧
    onDurations (loopBody 0) = [100, 100, 100] ∧
    offDurations (loopBody 0) = [100, 100, 100] ∧
    (loopBody 0).getLast? = some (Event.delayMs 1000) ∧
    wallTimeMs (loopBody 0) = 1600 := by
  decide

/-- C7 counterexample: the Slow pattern's total elapsed time is 3000 ms
(2 × (500 + 500) + 1000), not ≈2000 ms as claimed. -/
theorem slow_total_ne_2000 :
    wallTimeMs (loopBody 1) = 3000 ∧ wallTimeMs (loopBody 1) ≠ 2000 := by
  decide

/-- C7 (amended): executing the Slow pattern (index 1) produces exactly 2
on/off pulses of 500 ms on and 500 ms off each, followed by a 1000 ms
off-period, for a total elapsed time of 3000 ms. -/
theorem slow_pattern_structure :
    loopBody 1 = pulseTrain [(500, 500), (500, 500)] ++ [Event.delayMs 1000] ∧
    (loopBody 1).count Event.setLow = 2 ∧
    onDurations (loopBody 1) = [500, 500] ∧
    wallTimeMs (loopBody 1) = 3000 := by
  decide

/-- C1 counterexample: the sum of all delay durations in the SOS pattern is
7200 ms (1200 + 200 + 2400 + 200 + 1200 + 2000), not ~5400 ms as claimed. -/
theorem sos_total_ne_5400 :
    wallTimeMs (loopBody 2) = 7200 ∧ wallTimeMs (loopBody 2) ≠ 5400 := by
  decide

/-- C1 (amended): each iteration consumes wall-clock time equal to the sum of
all delay durations in the selected pattern (`wallTimeMs`), and for the SOS
pattern (index 2) that total is 7200 ms including the trailing pause. -/
theorem sos_iteration_time :
    wallTimeMs (loopBody 2) = (delayDurations (loopBody 2)).sum ∧
    wallTimeMs (loopBody 2) = 7200 := by
  decide

/-- C2: executing the SOS pattern (index 2) produces exactly 9 pulses
(3 short, 3 long, 3 short) whose on-durations in order are
[200,200,200,600,600,600,200,200,200] ms, with a 200 ms pause after each of
the first two groups, and the trailing 2000 ms pause closing the pattern
after the final 200 ms off-delay. -/
theorem sos_pattern_structure :
    loopBody 2 =
      pulseTrain [(200, 200), (200, 200), (200, 200)] ++ [Event.delayMs 200] ++
      pulseTrain [(600, 200), (600, 200), (600, 200)] ++ [Event.delayMs 200] ++
      pulseTrain [(200, 200), (200, 200), (200, 200)] ++ [Event.delayMs 2000] ∧
    (loopBody 2).count Event.setLow = 9 ∧
    onDurations (loopBody 2) = [200, 200, 200, 600, 600, 600, 200, 200, 200] := by
  decide

/-- C3: executing the Breathing pattern (index 3) produces exactly 20 on/off
pulses: the ascending half has on-durations [10,20,...,100] ms and matching
off-durations [90,80,...,0] ms (on + off = 100 ms for every pulse), the
descending half is the same pair sequence in reverse order, and the pattern
ends with a 500 ms pause. -/
theorem breathing_pattern_structure :
    loopBody 3 =
      pulseTrain breathPairs ++ pulseTrain breathPairs.reverse ++ [Event.delayMs 500] ∧
    (loopBody 3).count Event.setLow = 20 ∧
    onDurations (pulseTrain breathPairs) = [10, 20, 30, 40, 50, 60, 70, 80, 90, 100] ∧
    offDurations (pulseTrain breathPairs) = [90, 80, 70, 60, 50, 40, 30, 20, 10, 0] ∧
    (∀ p ∈ breathPairs, p.1 + p.2 = 100) ∧
    (loopBody 3).getLast? = some (Event.delayMs 500) := by
  decide

/-- C4: the pattern index starts at 0 (Fast), is always in {0,1,2,3}, after
each iteration the next index is `(current + 1) % 4`, and the index at
iteration `n` is `n % 4`, so the visited patterns are the infinite repetition
of (Fast, Slow, SOS, Breathing) with period 4. -/
theorem index_cycle (n : Nat) :
    indexAt 0 = 0 ∧
    indexAt n < 4 ∧
    indexAt (n + 1) = (indexAt n + 1) % 4 ∧
    indexAt n = n % 4 ∧
    indexAt (n + 4) = indexAt n := by
  refine ⟨rfl, ?_, rfl, indexAt_eq_mod n, ?_⟩
  · rw [indexAt_eq_mod]
    omega
  · rw [indexAt_eq_mod, indexAt_eq_mod]
    omega

/-- C5: for every pattern index i in {0,1,2,3}, executing pattern(i) leaves
the LED pin in the high (deactivated, off) electrical state regardless of the
level it started from, the last pin write of the pattern is `set_high`, and
the pattern ends with its trailing pause delay — so the LED is already off
before the trailing pause begins, and hence at every observation point
between patterns. -/
theorem pattern_ends_led_off (i : Nat) (h : i < 4) :
    levelAfter (loopBody i) Level.low = Level.high ∧
    levelAfter (loopBody i) Level.high = Level.high ∧
    (pinWrites (loopBody i)).getLast? = some Event.setHigh ∧
    (∃ d, (loopBody i).getLast? = some (Event.delayMs d)) := by
  interval_cases i <;> refine ⟨by decide, by decide, by decide, ?_⟩
  · exact ⟨1000, by decide⟩
  · exact ⟨1000, by decide⟩
  · exact ⟨2000, by decide⟩
  · exact ⟨500, by decide⟩

/-- Witness for C5 at the concrete index 2 (SOS). -/
theorem pattern_ends_led_off_witness :
    levelAfter (loopBody 2) Level.low = Level.high ∧
    levelAfter (loopBody 2) Level.high = Level.high ∧
    (pinWrites (loopBody 2)).getLast? = some Event.setHigh ∧
    (∃ d, (loopBody 2).getLast? = some (Event.delayMs d)) :=
  pattern_ends_led_off 2 (by decide)

/-- C8: in every pattern, every on-phase is realized by `set_low` followed by
its on-delay and every off-phase by `set_high` followed by its off-delay
(inverted polarity: on = pin low), i.e. each pattern's event list consists
only of complete `pulse`-shaped blocks and standalone pause delays. -/
theorem pattern_pulse_polarity (i : Nat) (h : i < 4) :
    isPulsesAndPauses (loopBody i) = true ∧
    pulse 1 2 = [Event.setLow, Event.delayMs 1, Event.setHigh, Event.delayMs 2] := by
  interval_cases i <;> exact ⟨by decide, rfl⟩

/-- Witness for C8 at the concrete index 3 (Breathing). -/
theorem pattern_pulse_polarity_witness :
    isPulsesAndPauses (loopBody 3) = true ∧
    pulse 1 2 = [Event.setLow, Event.delayMs 1, Event.setHigh, Event.delayMs 2] :=
  pattern_pulse_polarity 3 (by decide)

/-- C9: the sequencer is deterministic: any two runs satisfying the code's
step conditions (index starts at 0, iteration output is a function of the
current index alone, next index is `(current + 1) % 4`) agree at every
iteration, on both the index and the emitted event sequence — there is no
hidden state affecting pattern output beyond the index. -/
theorem run_deterministic (f g : Nat → Nat × List Event)
    (hf : IsRun f) (hg : IsRun g) (n : Nat) : f n = g n := by
  have hfst : ∀ m, (f m).1 = (g m).1 := by
    intro m
    induction m with
    | zero => rw [hf.1, hg.1]
    | succ k ih => rw [(hf.2 k).2, (hg.2 k).2, ih]
  have hsnd : (f n).2 = (g n).2 := by
    rw [(hf.2 n).1, (hg.2 n).1, hfst n]
  exact Prod.ext (hfst n) hsnd

/-- Witness for C9: the run of `main` and the closed-form run both satisfy
`IsRun`, so the theorem forces them to agree, here at iteration 6. -/
theorem run_deterministic_witness : mainRun 6 = canonicalRun 6 :=
  run_deterministic mainRun canonicalRun
    ⟨rfl, fun _ => ⟨rfl, rfl⟩⟩
    ⟨rfl, fun n => ⟨rfl, by show (n + 1) % 4 = (n % 4 + 1) % 4; omega⟩⟩
    6

/-- C10: within every pattern, the pin writes strictly alternate `set_low`,
`set_high`, beginning with `set_low` and ending with `set_high`, so each
pattern issues an equal number of on-writes and off-writes and the pin never
receives two consecutive writes of the same level. -/
theorem pattern_writes_alternate (i : Nat) (h : i < 4) :
    isAltLowHigh (pinWrites (loopBody i)) = true ∧
    pinWrites (loopBody i) ≠ [] ∧
    (pinWrites (loopBody i)).head? = some Event.setLow ∧
    (pinWrites (loopBody i)).getLast? = some Event.setHigh ∧
    (loopBody i).count Event.setLow = (loopBody i).count Event.setHigh := by
  interval_cases i <;> exact ⟨by decide, by decide, by decide, by decide, by decide⟩

/-- Witness for C10 at the concrete index 0 (Fast). -/
theorem pattern_writes_alternate_witness :
    isAltLowHigh (pinWrites (loopBody 0)) = true ∧
    pinWrites (loopBody 0) ≠ [] ∧
    (pinWrites (loopBody 0)).head? = some Event.setLow ∧
    (pinWrites (loopBody 0)).getLast? = some Event.setHigh ∧
    (loopBody 0).count Event.setLow = (loopBody 0).count Event.setHigh :=
  pattern_writes_alternate 0 (by decide)
